import Mathlib

/-
Verification development for nifxml.py (niftools/nifxml).

The definitions below are a shallow embedding of the functions of
src/tools/nifxml/nifxml.py that the checked claims concern:
the version codec (version2number), the expression engine (the
Expression class: scanBrackets, the partition step, the terminal
classifier, evaluation), the Member and Struct constructors, and the
parse_xml / validate_xml load pipeline.

Conventions of the embedding:
- Python strings are List Char; Python int is the unbounded Int.
- The file is written in the Python 2 compatible dialect it targets
  (py2 shebang, __future__ import, py2 doctests); accordingly the
  division operator on integers is floor division (Int.fdiv), mixed
  numeric and string comparison orders numbers before strings, and
  int literals allow no underscore separators.
- Python exceptions are the error side of Except PyErr; the bounded
  recursion of the expression parser carries fuel, whose exhaustion is
  the distinguished PyErr.fuelOut (never reached at the inputs used in
  the theorems; the initial fuel exceeds the recursion depth bound).
- Python object identity (which is what the default == of the Member
  class compares) is modelled by an allocation index (oid) given to
  each freshly built Member.
- The module level registry dictionaries of nifxml.py are modelled as
  an explicit Registries state threaded through parse_xml; a dict is
  represented by its insertion ordered key list, which is all that the
  registry logic (membership assert, len, truthiness) observes.
- Entity payloads that none of the checked claims observe (cname
  formatting, descriptions, default value synthesis, native type
  table, sibling reference lists) are not carried by the model; none
  of the modelled computations reads them.
-/

set_option maxRecDepth 40000

/-- Shorthand: the character list of a string literal. -/
def lc (s : String) : List Char := s.data

/-- Error values modelling the Python exceptions nifxml.py can raise, plus a
fuel marker for the bounded recursion of the parser embedding. -/
inductive PyErr where
| valueError : PyErr
| attributeError : List Char → PyErr
| assertionError : PyErr
| typeError : PyErr
| zeroDivisionError : PyErr
| notImplementedError : PyErr
| fuelOut : PyErr
deriving DecidableEq, Repr

/-- Python str.strip() whitespace set. -/
def isPySpace (c : Char) : Bool :=
  c = ' ' || c = '\t' || c = '\n' || c = '\x0d' || c = '\x0b' || c = '\x0c'

/-- Python str.strip(): drop whitespace at both ends. -/
def pyStrip (s : List Char) : List Char :=
  ((s.dropWhile isPySpace).reverse.dropWhile isPySpace).reverse

/-- Numeric value of a decimal digit string (all characters digits). -/
def digitsVal (s : List Char) : Nat :=
  s.foldl (fun a c => a * 10 + (c.toNat - 48)) 0

/-- Python int(str) in the py2 dialect: strip whitespace, one optional sign,
then decimal digits; anything else raises ValueError (modelled as none). -/
def pyIntOfStr (s : List Char) : Option Int :=
  let t := pyStrip s
  match t with
  | '+' :: r =>
      if (!r.isEmpty) && r.all Char.isDigit then some (Int.ofNat (digitsVal r)) else none
  | '-' :: r =>
      if (!r.isEmpty) && r.all Char.isDigit then some (-(Int.ofNat (digitsVal r))) else none
  | r =>
      if (!r.isEmpty) && r.all Char.isDigit then some (Int.ofNat (digitsVal r)) else none

/-- Python int(str), with ValueError on failure. -/
def pyIntE (s : List Char) : Except PyErr Int :=
  match pyIntOfStr s with
  | some n => .ok n
  | none => .error .valueError

/-- Python left shift on int: multiply by the power of two (exact also for
negative values). -/
def pyShl (a : Int) (k : Nat) : Int := a * (2 ^ k : Int)

/-- Python s.split(".") on character lists. -/
def splitDot : List Char → List (List Char)
| [] => [[]]
| '.' :: r => [] :: splitDot r
| c :: r =>
    match splitDot r with
    | h :: t => (c :: h) :: t
    | [] => [[c]]

/-- The 2-component branch of version2number (nifxml.py lines 186-195): the
second component contributes digit 0 at shift 16, digit 1 at shift 8, and the
remaining digits, read as one integer, at shift 0. -/
def v2nTwoTail : List Char → Except PyErr Int
| [] => .ok 0
| [c0] => do
    let d0 ← pyIntE [c0]
    .ok (pyShl d0 16)
| [c0, c1] => do
    let d0 ← pyIntE [c0]
    let d1 ← pyIntE [c1]
    .ok (pyShl d0 16 + pyShl d1 8)
| c0 :: c1 :: rest => do
    let d0 ← pyIntE [c0]
    let d1 ← pyIntE [c1]
    let dr ← pyIntE rest
    .ok (pyShl d0 16 + pyShl d1 8 + dr)

/-- The general branch of version2number (lines 196-200): component i goes to
shift (3 - i) * 8. -/
def v2nGo : Nat → List (List Char) → Except PyErr Int
| _, [] => .ok 0
| i, v :: rest => do
    let n ← pyIntE v
    let restV ← v2nGo (i + 1) rest
    .ok (pyShl n ((3 - i) * 8) + restV)

/-- nifxml.py version2number (lines 173-200). Returns ok none for the empty
string (the Python None return used as the unset marker), raises
AssertionError for more than 4 dot separated components (the assert False),
and otherwise packs the components into a 32-bit style integer; int()
conversion failures surface as ValueError. -/
def version2number (s : List Char) : Except PyErr (Option Int) :=
  if s = [] then .ok none
  else
    let numbers := splitDot s
    if numbers.length > 4 then .error .assertionError
    else
      match numbers with
      | [n0, n1] => do
          let v0 ← pyIntE n0
          let tail ← v2nTwoTail n1
          .ok (some (pyShl v0 24 + tail))
      | _ => do
          let v ← v2nGo 0 numbers
          .ok (some v)

/-- The parsed expression tree of the Expression class. A Python Expression
object is a node (left, operator, right); a child slot holds either a nested
Expression or a plain string terminal (nifxml.py never leaves an int there:
its terminal classifier returns str(int(...)), a string). The strT
constructor is such a string child; mkExprF only ever produces node. -/
inductive PExpr where
| strT : List Char → PExpr
| node : PExpr → List Char → PExpr → PExpr
deriving DecidableEq, Repr

/-- The operator table of the Expression class, in source order. -/
def operators : List (List Char) :=
  [['=', '='], ['!', '='], ['>', '='], ['<', '='], ['&', '&'], ['|', '|'],
   ['&'], ['|'], ['-'], ['+'], ['>'], ['<'], ['/'], ['*']]

/-- Python slice s[a:b] (clamped at the ends, as Python slicing is). -/
def sliceClamp (s : List Char) (a b : Nat) : List Char :=
  (s.drop a).take (b - a)

/-- Substring test: Python s.find(pat) != -1. -/
def listHasInfix (pat : List Char) : List Char → Bool
| [] => pat.isEmpty
| c :: r => List.isPrefixOf pat (c :: r) || listHasInfix pat r

/-- Left strip of the character set used by the unary branch of the partition
step: expr_str.lstrip(" !"). -/
def lstripSpaceBang (s : List Char) : List Char :=
  s.dropWhile (fun c => c = ' ' || c = '!')

/-- The loop body of Expression._scan_brackets (nifxml.py lines 448-480):
walk the characters tracking depth; the first opening bracket fixes startpos,
and the closing bracket that returns the depth to zero breaks with endpos.
Falling off the end with a bracket seen raises the ValueError of the
for-else clause. -/
def scanBracketsGo : List Char → Nat → Option Nat → Int →
    Except PyErr (Option Nat × Option Nat)
| [], _, startpos, _ =>
    if startpos ≠ none then .error .valueError else .ok (none, none)
| c :: rest, pos, startpos, depth =>
    if c = '(' then
      scanBracketsGo rest (pos + 1)
        (if startpos = none then some pos else startpos) (depth + 1)
    else if c = ')' then
      if depth - 1 = 0 then .ok (startpos, some pos)
      else scanBracketsGo rest (pos + 1) startpos (depth - 1)
    else scanBracketsGo rest (pos + 1) startpos depth

/-- Expression._scan_brackets from index 0 (its only use in parsing). -/
def scanBracketsE (s : List Char) : Except PyErr (Option Nat × Option Nat) :=
  scanBracketsGo s 0 none 0

/-- Number of leading space characters (the `while expr_str[p] == " "` skip). -/
def countSpaces : List Char → Nat
| ' ' :: r => countSpaces r + 1
| _ => 0

/-- Operator lookup at a position: first the two character slice (with its end
index op_start + 1), then the one character slice (end index op_start), as in
the `range(op_start_pos + 1, op_start_pos - 1, -1)` loop. -/
def opScanAt (s : List Char) (p : Nat) : Option (List Char × Nat) :=
  let two := sliceClamp s p (p + 2)
  if operators.contains two then some (two, p + 1)
  else
    let one := sliceClamp s p (p + 1)
    if operators.contains one then some (one, p) else none

/-- The first-operator scan of the bracketless branch of the partition step
(lines 421-435): skip spaces, raise on a bare bracket, and stop at the first
position whose two or one character slice is an operator. -/
def opSearchGo (s : List Char) : List Char → Nat →
    Except PyErr (Option (Nat × List Char × Nat))
| [], _ => .ok none
| c :: r, p =>
    if c = ' ' then opSearchGo s r (p + 1)
    else if c = '(' || c = ')' then .error .valueError
    else
      match opScanAt s p with
      | some (op, opEnd) => .ok (some (p, op, opEnd))
      | none => opSearchGo s r (p + 1)

/-- Expression._partition (nifxml.py lines 370-446). Returns (left, op,
right); right is none for the unary branch (Python returns None there) and
some of a string otherwise. -/
def partitionF : Nat → List Char → Except PyErr (List Char × List Char × Option (List Char))
| 0, _ => .error .fuelOut
| fuel + 1, s =>
    if List.isPrefixOf ['!'] (pyStrip s) then
      .ok (lstripSpaceBang s, ['!'], none)
    else
      let lenstr := s.length
      match scanBracketsE s with
      | .error e => .error e
      | .ok (some startpos, some endpos) =>
          let leftStr := pyStrip (sliceClamp s (startpos + 1) endpos)
          let opStart := (endpos + 1) + countSpaces (s.drop (endpos + 1))
          if opStart < lenstr then
            match opScanAt s opStart with
            | some (opStr, opEnd) =>
                .ok (leftStr, opStr, some (pyStrip (s.drop (opEnd + 1))))
            | none => .error .valueError
          else partitionF fuel leftStr
      | .ok (_, _) =>
          match opSearchGo s s 0 with
          | .error e => .error e
          | .ok (some (p, opStr, opEnd)) =>
              .ok (pyStrip (s.take p), opStr, some (pyStrip (s.drop (opEnd + 1))))
          | .ok none => .ok (pyStrip s, [], some [])

/-- Prefix match of the dotted version pattern of _parse:
re.match on four digit runs separated by dots. -/
def mverMatch (s : List Char) : Bool :=
  let d1 := s.dropWhile Char.isDigit
  if s.length = d1.length then false
  else
    match d1 with
    | '.' :: r1 =>
        let d2 := r1.dropWhile Char.isDigit
        if r1.length = d2.length then false
        else
          match d2 with
          | '.' :: r2 =>
              let d3 := r2.dropWhile Char.isDigit
              if r2.length = d3.length then false
              else
                match d3 with
                | '.' :: r3 => r3.length ≠ (r3.dropWhile Char.isDigit).length
                | _ => false
          | _ => false
    | _ => false

/-- Prefix match of the integer pattern of _parse: a leading digit. -/
def iverMatch : List Char → Bool
| c :: _ => c.isDigit
| [] => false

/-- Decimal digit character (48 + d for d below 10). -/
def digitCharD (d : Nat) : Char := Char.ofNat (48 + d)

/-- Uppercase hexadecimal digit character. -/
def hexCharD (d : Nat) : Char :=
  if d < 10 then Char.ofNat (48 + d) else Char.ofNat (55 + d)

/-- Decimal digits of a natural number, most significant first (fueled). -/
def natDecAux : Nat → Nat → List Char → List Char
| 0, _, acc => acc
| fuel + 1, n, acc =>
    if n < 10 then digitCharD (n % 10) :: acc
    else natDecAux fuel (n / 10) (digitCharD (n % 10) :: acc)

/-- Python str(n) for an int value. -/
def decRenderInt (n : Int) : List Char :=
  if n < 0 then '-' :: natDecAux (n.natAbs + 1) n.natAbs []
  else natDecAux (n.toNat + 1) n.toNat []

/-- Uppercase hexadecimal digits of a natural number (fueled). -/
def natHexAux : Nat → Nat → List Char → List Char
| 0, _, acc => acc
| fuel + 1, n, acc =>
    if n < 16 then hexCharD (n % 16) :: acc
    else natHexAux fuel (n / 16) (hexCharD (n % 16) :: acc)

/-- Zero pad on the left to the given width. -/
def zeroPadTo (w : Nat) (l : List Char) : List Char :=
  List.replicate (w - l.length) '0' ++ l

/-- Python "0x%08X" % n. -/
def hexRenderFull (n : Int) : List Char :=
  '0' :: 'x' ::
    (if n < 0 then '-' :: zeroPadTo 7 (natHexAux (n.natAbs + 1) n.natAbs [])
     else zeroPadTo 8 (natHexAux (n.toNat + 1) n.toNat []))

/-- The name filter argument of the Expression constructor. -/
def NameFilter : Type := Option (List Char → List Char)

/-- The fall-through of _parse: the raw string through the optional filter. -/
def nameTerm (f : NameFilter) (s : List Char) : PExpr :=
  PExpr.strT (match f with | some g => g s | none => s)

mutual

/-- Expression.__init__ (nifxml.py lines 268-275): partition the string,
classify the left side, and classify the right side when it is a non empty
string (None from the unary branch and the empty string both leave the
right slot holding the empty string terminal). -/
def mkExprF : Nat → NameFilter → List Char → Except PyErr PExpr
| 0, _, _ => .error .fuelOut
| fuel + 1, f, s => do
    let (left, op, right) ← partitionF (s.length + 1) s
    let l ← parseTermF fuel f left
    let r ←
      match right with
      | some rs =>
          if rs ≠ [] then parseTermF fuel f rs else pure (PExpr.strT [])
      | none => pure (PExpr.strT [])
    pure (PExpr.node l op r)

/-- Expression._parse (nifxml.py lines 344-368): brackets or an operator
substring recurse into a nested Expression; otherwise a dotted version prefix
renders as a 0x hex literal string (AssertionError from version2number
propagates, ValueError falls through to the name path), a digit prefix
renders as str(int(...)) when int() succeeds, and everything else is the raw
name through the filter. -/
def parseTermF : Nat → NameFilter → List Char → Except PyErr PExpr
| 0, _, _ => .error .fuelOut
| fuel + 1, f, s =>
    if s.contains '(' || s.contains ')' then mkExprF fuel f s
    else if operators.any (fun op => listHasInfix op s) then mkExprF fuel f s
    else if mverMatch s then
      match version2number s with
      | .ok (some n) => .ok (PExpr.strT (hexRenderFull n))
      | .ok none => .error .typeError
      | .error .valueError => .ok (nameTerm f s)
      | .error e => .error e
    else if iverMatch s then
      match pyIntOfStr s with
      | some n => .ok (PExpr.strT (decRenderInt n))
      | none => .ok (nameTerm f s)
    else .ok (nameTerm f s)

end

/-- Parse entry point: Expression(expr_str, name_filter) with ample fuel. -/
def mkExprTop (f : NameFilter) (s : List Char) : Except PyErr PExpr :=
  mkExprF (2 * s.length + 4) f s

/-- A Python value appearing during expression evaluation: an int, a bool, or
a string (the empty string result of the quote-quote terminal, and any string
valued context attribute). -/
inductive PVal where
| vint : Int → PVal
| vbool : Bool → PVal
| vstr : List Char → PVal
deriving DecidableEq, Repr

/-- An evaluation context: the attribute table of the data object handed to
Expression.eval. getattr succeeds exactly on the listed names. -/
def Ctx : Type := List (List Char × PVal)

/-- getattr(data, name): attribute lookup, AttributeError when absent. -/
def getattrE (ctx : Ctx) (name : List Char) : Except PyErr PVal :=
  match ctx.find? (fun p => p.fst == name) with
  | some p => .ok p.snd
  | none => .error (.attributeError name)

/-- Python truthiness of the modelled values. -/
def pyTruthy : PVal → Bool
| .vint n => n ≠ 0
| .vbool b => b
| .vstr s => !s.isEmpty

/-- Numeric reading of a value: ints and bools (False 0, True 1). -/
def numOf : PVal → Option Int
| .vint n => some n
| .vbool b => some (if b then 1 else 0)
| .vstr _ => none

/-- Python int(value): ints pass through, bools map to 0 or 1, strings parse
as decimal integers or raise ValueError. -/
def pyToInt : PVal → Except PyErr Int
| .vint n => .ok n
| .vbool b => .ok (if b then 1 else 0)
| .vstr s => pyIntE s

/-- Python == on the modelled values: numeric kinds compare by value (True
equals 1), strings compare to strings, and a string never equals a number. -/
def pyEq (a b : PVal) : Bool :=
  match numOf a, numOf b with
  | some x, some y => x == y
  | _, _ =>
      match a, b with
      | .vstr s, .vstr t => s == t
      | _, _ => false

/-- Lexicographic order on character lists by code point. -/
def lexLe : List Char → List Char → Bool
| [], _ => true
| _ :: _, [] => false
| a :: as, b :: bs =>
    if a.toNat < b.toNat then true
    else if a = b then lexLe as bs else false

/-- Python <= in the py2 dialect: numeric pairs by value, string pairs
lexicographically, and numbers order before strings. -/
def pyLe (a b : PVal) : Bool :=
  match numOf a, numOf b with
  | some x, some y => x ≤ y
  | some _, none => true
  | none, some _ => false
  | none, none =>
      match a, b with
      | .vstr s, .vstr t => lexLe s t
      | _, _ => true

/-- Python & : bool pairs stay bool, numeric pairs use bitwise int and,
strings raise TypeError. -/
def pyBitAnd : PVal → PVal → Except PyErr PVal
| .vbool a, .vbool b => .ok (.vbool (a && b))
| a, b =>
    match numOf a, numOf b with
    | some x, some y => .ok (.vint (Int.land x y))
    | _, _ => .error .typeError

/-- Python | : bool pairs stay bool, numeric pairs use bitwise int or,
strings raise TypeError. -/
def pyBitOr : PVal → PVal → Except PyErr PVal
| .vbool a, .vbool b => .ok (.vbool (a || b))
| a, b =>
    match numOf a, numOf b with
    | some x, some y => .ok (.vint (Int.lor x y))
    | _, _ => .error .typeError

/-- Python - on the modelled values. -/
def pySub (a b : PVal) : Except PyErr PVal :=
  match numOf a, numOf b with
  | some x, some y => .ok (.vint (x - y))
  | _, _ => .error .typeError

/-- Python + : numeric addition or string concatenation. -/
def pyAdd : PVal → PVal → Except PyErr PVal
| .vstr s, .vstr t => .ok (.vstr (s ++ t))
| a, b =>
    match numOf a, numOf b with
    | some x, some y => .ok (.vint (x + y))
    | _, _ => .error .typeError

/-- Python / in the py2 dialect: floor division on integers (Int.fdiv),
ZeroDivisionError on a zero divisor, TypeError with a string operand. -/
def pyDiv (a b : PVal) : Except PyErr PVal :=
  match numOf a, numOf b with
  | some x, some y =>
      if y = 0 then .error .zeroDivisionError else .ok (.vint (Int.fdiv x y))
  | _, _ => .error .typeError

/-- Python * : numeric product, or string replication by a numeric count. -/
def pyMul : PVal → PVal → Except PyErr PVal
| .vstr s, b =>
    match numOf b with
    | some y => .ok (.vstr (List.flatten (List.replicate y.toNat s)))
    | none => .error .typeError
| a, .vstr t =>
    match numOf a with
    | some x => .ok (.vstr (List.flatten (List.replicate x.toNat t)))
    | none => .error .typeError
| a, b =>
    match numOf a, numOf b with
    | some x, some y => .ok (.vint (x * y))
    | _, _ => .error .typeError

/-- The operator dispatch chain of Expression.eval (nifxml.py lines 299-326),
applied after both operand slots have been resolved. -/
def applyOp (op : List Char) (left right : PVal) : Except PyErr PVal :=
  if op = ['=', '='] then .ok (.vint (if pyEq left right then 1 else 0))
  else if op = ['!', '='] then .ok (.vint (if pyEq left right then 0 else 1))
  else if op = ['>', '='] then .ok (.vint (if pyLe right left then 1 else 0))
  else if op = ['<', '='] then .ok (.vint (if pyLe left right then 1 else 0))
  else if op = ['&', '&'] then do
    let n ← pyToInt (if pyTruthy left then right else left)
    .ok (.vint n)
  else if op = ['|', '|'] then do
    let n ← pyToInt (if pyTruthy left then left else right)
    .ok (.vint n)
  else if op = ['&'] then pyBitAnd left right
  else if op = ['|'] then pyBitOr left right
  else if op = ['-'] then pySub left right
  else if op = ['+'] then pyAdd left right
  else if op = ['/'] then pyDiv left right
  else if op = ['*'] then pyMul left right
  else if op = ['!'] then .ok (.vbool (!pyTruthy left))
  else .error .notImplementedError

/-- Expression.eval (nifxml.py lines 277-326). A child slot that is a nested
Expression evaluates recursively; a string slot resolves by getattr on the
context unless it is the literal two character quote-quote string, which
evaluates to the empty string. The left slot resolves first; an empty
operator returns it; otherwise the right slot resolves (there is no short
circuit, and the empty right slot of a unary or dangling operator node is
looked up as the empty attribute name) and the operator chain applies. -/
def evalE (ctx : Ctx) : PExpr → Except PyErr PVal
| .strT s => if s = ['"', '"'] then .ok (.vstr []) else getattrE ctx s
| .node l op r => do
    let left ← evalE ctx l
    if op = [] then pure left
    else do
      let right ← evalE ctx r
      applyOp op left right

/-- Parse then evaluate: Expression(s, f).eval(data). -/
def parseEvalTop (f : NameFilter) (s : List Char) (ctx : Ctx) : Except PyErr PVal := do
  let e ← mkExprTop f s
  evalE ctx e

/-- The left slot of a parsed Expression (the lhs property). Defined totally;
every Expression the constructor builds is a node. -/
def PExpr.lhs : PExpr → PExpr
| .node l _ _ => l
| .strT s => .strT s

/-- Python comparison of an Expression child slot against a string constant,
as in `self.cond.lhs == "(ARG)"`: a nested Expression object never equals a
string, a string slot compares by content. -/
def slotEqStr (t : PExpr) (pat : List Char) : Bool :=
  match t with
  | .strT s => s == pat
  | .node _ _ _ => false

/-- The placeholder string constant of the uses_argument test. -/
def argPlaceholder : List Char := ['(', 'A', 'R', 'G', ')']

/-- The attributes of one <add> element that feed the modelled Member
computations: name, suffix, and the three expression strings. The remaining
attributes of the element (type, arg, defaults, version bounds, ...) feed
only fields no modelled operation reads. -/
structure Decl where
  dname : List Char
  dsuffix : List Char
  dcond : List Char
  dlength : List Char
  dwidth : List Char
deriving DecidableEq, Repr

/-- The modelled slice of a Member object (nifxml.py lines 640-780). The oid
is the object identity of the instance: Member defines no __eq__, so the
Python == used by the membership test of Struct.__init__ compares identity,
and each constructed Member is a fresh object. next_dup stores the oid of
the referenced later member. -/
structure MemberM where
  oid : Nat
  mname : List Char
  msuffix : List Char
  mcond : PExpr
  mlength : PExpr
  mwidth : PExpr
  usesArgument : Bool
  nextDup : Option Nat
deriving DecidableEq, Repr

/-- Member.__init__, restricted to the modelled fields: parse the length,
width and cond attribute strings through the expression engine (Expr passes
no name filter), then compute uses_argument as in lines 727-728: any of the
three lhs slots equal (by Python ==) to the literal string "(ARG)". -/
def mkMember (oid : Nat) (d : Decl) : Except PyErr MemberM := do
  let lengthE ← mkExprTop none d.dlength
  let widthE ← mkExprTop none d.dwidth
  let condE ← mkExprTop none d.dcond
  let ua := slotEqStr condE.lhs argPlaceholder ||
            slotEqStr lengthE.lhs argPlaceholder ||
            slotEqStr widthE.lhs argPlaceholder
  pure (MemberM.mk oid d.dname d.dsuffix condE lengthE widthE ua none)

/-- The modelled slice of a Struct object: the retained member list and the
argument flag. -/
structure StructM where
  members : List MemberM
  argument : Bool
deriving DecidableEq, Repr

/-- Membership by Python ==, which for Member is object identity: a list
member equals x exactly when it is the same object (same oid). -/
def memberIn (x : MemberM) (ms : List MemberM) : Bool :=
  ms.any (fun m => m.oid == x.oid)

/-- The member loop of Struct.__init__ (nifxml.py lines 891-901): build a
Member per <add> element (fresh oid), skip it when `x in self.members`
holds, else append it and overwrite self.argument with
bool(x.uses_argument). -/
def structLoop : Nat → List Decl → List MemberM → Bool →
    Except PyErr (List MemberM × Bool)
| _, [], ms, arg => .ok (ms, arg)
| oid, d :: rest, ms, arg => do
    let x ← mkMember oid d
    if memberIn x ms then structLoop (oid + 1) rest ms arg
    else structLoop (oid + 1) rest (ms ++ [x]) x.usesArgument

/-- The first later sibling of the list suffix with the same name, as scanned
by the duplicate chain pass. -/
def findDupAfter (nm : List Char) : List MemberM → Option Nat
| [] => none
| m :: rest => if m.mname == nm then some m.oid else findDupAfter nm rest

/-- The duplicate chain pass of Struct.__init__ (nifxml.py lines 918-928):
for each member, link next_dup to the first later member with the same name
(the inner scan arms itself at the identity match, which is the position of
the member itself since all list entries are distinct objects). -/
def assignDups : List MemberM → List MemberM
| [] => []
| m :: rest =>
    MemberM.mk m.oid m.mname m.msuffix m.mcond m.mlength m.mwidth
      m.usesArgument (findDupAfter m.mname rest) :: assignDups rest

/-- Struct.__init__ on a list of <add> declarations (lines 884-928), producing
the retained members (with duplicate chains assigned) and the argument
flag. The link and crossref propagation reads only fields outside the
model. -/
def structInitM (decls : List Decl) : Except PyErr StructM := do
  let (ms, arg) ← structLoop 0 decls [] false
  pure (StructM.mk (assignDups ms) arg)

/-- One registry category: the key list of the TYPES_ dict together with the
NAMES_ list, in insertion order. -/
structure Registry where
  keys : List (List Char)
  names : List (List Char)
deriving DecidableEq, Repr

/-- The six module level registry pairs of nifxml.py. -/
structure Registries where
  versions : Registry
  basics : Registry
  enums : Registry
  flags : Registry
  structs : Registry
  blocks : Registry
deriving DecidableEq, Repr

/-- The empty module state (all registries empty, as at import time). -/
def initRegistries : Registries :=
  Registries.mk (Registry.mk [] []) (Registry.mk [] []) (Registry.mk [] [])
    (Registry.mk [] []) (Registry.mk [] []) (Registry.mk [] [])

/-- The document slice parse_xml reads: the version attribute of the root
element and, per category, the names of the elements of that tag in document
order. Entity payloads beyond the name feed no registry decision. -/
structure DocM where
  docVersion : List Char
  versionEls : List (List Char)
  basicEls : List (List Char)
  enumEls : List (List Char)
  flagEls : List (List Char)
  structEls : List (List Char)
  niobjectEls : List (List Char)
deriving DecidableEq, Repr

/-- One category loop of parse_xml: construct each instance (whose
constructor asserts a non empty name in every category except version),
assert the name is not yet registered, then insert into the dict and append
to the name list. -/
def regAddAll (checkName : Bool) (r : Registry) : List (List Char) →
    Except PyErr Registry
| [] => .ok r
| n :: rest =>
    if checkName && n.isEmpty then .error .assertionError
    else if r.keys.contains n then .error .assertionError
    else regAddAll checkName (Registry.mk (r.keys ++ [n]) (r.names ++ [n])) rest

/-- MIN_XML_VERSION of nifxml.py. -/
def minXmlVersion : List Char := lc "0.9.1.0"

/-- NifXml.is_supported (lines 789-791): version2number of the root version
attribute compared against the minimum; errors of version2number propagate,
and the None of an empty attribute compares below every number (py2). -/
def isSupported (docVersion : List Char) : Except PyErr Bool := do
  let v ← version2number docVersion
  let m ← version2number minXmlVersion
  match v, m with
  | some v, some m => .ok (decide (v ≥ m))
  | none, _ => .ok false
  | some _, none => .ok true

/-- The val lambda of validate_xml (line 1049): both containers truthy, equal
sizes, and every name truthy. -/
def regVal (r : Registry) : Bool :=
  (!r.keys.isEmpty) && (!r.names.isEmpty) && r.keys.length == r.names.length &&
    r.names.all (fun n => !n.isEmpty)

/-- validate_xml (lines 1047-1060). -/
def validateXml (regs : Registries) : Bool :=
  regVal regs.versions && regVal regs.basics && regVal regs.structs &&
    regVal regs.blocks && regVal regs.enums && regVal regs.flags

/-- parse_xml (nifxml.py lines 992-1044) over the explicit registry state
that models the module level dictionaries: reject an unsupported root
version (returning False with the state untouched), then populate the six
categories in source order with the duplicate name assert, then run
validate_xml. Exceptions surface as the error side. -/
def parseXmlM (regs : Registries) (doc : DocM) : Except PyErr (Bool × Registries) := do
  let sup ← isSupported doc.docVersion
  if !sup then .ok (false, regs)
  else do
    let vs ← regAddAll false regs.versions doc.versionEls
    let bs ← regAddAll true regs.basics doc.basicEls
    let es ← regAddAll true regs.enums doc.enumEls
    let fs ← regAddAll true regs.flags doc.flagEls
    let ss ← regAddAll true regs.structs doc.structEls
    let ns ← regAddAll true regs.blocks doc.niobjectEls
    let after := Registries.mk vs bs es fs ss ns
    .ok (validateXml after, after)

/-- A well formed sample document with one element per category. -/
def sampleDoc : DocM :=
  DocM.mk (lc "0.9.1.0") [lc "V1"] [lc "uint"] [lc "AlphaFormat"]
    [lc "PathFlags"] [lc "ByteColor3"] [lc "NiObject"]

/-- The registry state after the first successful load of sampleDoc. -/
def sampleRegsAfter : Registries :=
  Registries.mk (Registry.mk [lc "V1"] [lc "V1"])
    (Registry.mk [lc "uint"] [lc "uint"])
    (Registry.mk [lc "AlphaFormat"] [lc "AlphaFormat"])
    (Registry.mk [lc "PathFlags"] [lc "PathFlags"])
    (Registry.mk [lc "ByteColor3"] [lc "ByteColor3"])
    (Registry.mk [lc "NiObject"] [lc "NiObject"])

/-- The name filter of the class doctest: "hello_" prepended to the lowered
name. -/
def hWorldFilter : List Char → List Char :=
  fun s => lc "hello_" ++ s.map Char.toLower

/-- The tree parsed from "99 & 15". -/
def expr99and15 : PExpr := .node (.strT (lc "99")) ['&'] (.strT (lc "15"))

/-- The tree parsed from "(99&15)&&WORLD" under hWorldFilter. -/
def exprWorldM : PExpr := .node expr99and15 ['&', '&'] (.strT (lc "hello_world"))

/-- A context binding the filtered WORLD name to false. -/
def ctxWorld : Ctx := [(lc "hello_world", PVal.vbool false)]

/-- The tree parsed from the empty string: the empty terminal. -/
def emptyExprM : PExpr := .node (.strT []) [] (.strT [])

/-- The tree parsed from "x / y". -/
def exprDivXY : PExpr := .node (.strT (lc "x")) ['/'] (.strT (lc "y"))

/-- A context with x bound to -7 and y bound to 2. -/
def ctxDivM : Ctx := [(lc "x", PVal.vint (-7)), (lc "y", PVal.vint 2)]

/-- The tree parsed from "x && y". -/
def exprAndXY : PExpr := .node (.strT (lc "x")) ['&', '&'] (.strT (lc "y"))

/-- A context binding x to 0 and leaving y unbound. -/
def ctxAndM : Ctx := [(lc "x", PVal.vint 0)]

/-- A declaration with name X and no other attributes. -/
def declX : Decl := Decl.mk (lc "X") [] [] [] []

/-- A declaration whose cond attribute is the bracketed placeholder text. -/
def declArgM : Decl := Decl.mk (lc "A") [] (lc "(ARG)") [] []

/-- The Member built from declArgM: the bracketed cond parses to a node whose
left slot is the string ARG (never the five character string with the
brackets), so uses_argument is false. -/
def memberArgM : MemberM :=
  MemberM.mk 0 (lc "A") [] (PExpr.node (.strT (lc "ARG")) [] (.strT []))
    emptyExprM emptyExprM false none

/-- The Struct built from the single declaration declArgM. -/
def structArgM : StructM := StructM.mk [memberArgM] false

/-- First retained member of the two identical X declarations. -/
def memberX0 : MemberM :=
  MemberM.mk 0 (lc "X") [] emptyExprM emptyExprM emptyExprM false (some 1)

/-- Second retained member of the two identical X declarations. -/
def memberX1 : MemberM :=
  MemberM.mk 1 (lc "X") [] emptyExprM emptyExprM emptyExprM false none

/-- The Struct built from two structurally identical X declarations: both
members retained, chained by next_dup. -/
def structXXM : StructM := StructM.mk [memberX0, memberX1] false

/-
Theorems. Helper lemmas come first, then one theorem per claim with its
counterexample and witness theorems.
-/

/-- Inversion of a successful Except bind. -/
theorem exceptBind_ok {ε α β : Type} {x : Except ε α} {f : α → Except ε β} {v : β}
    (h : (x >>= f) = .ok v) : ∃ a, x = .ok a ∧ f a = .ok v := by
  cases x with
  | error e => simp [Bind.bind, Except.bind] at h
  | ok a => exact ⟨a, rfl, by simpa [Bind.bind, Except.bind] using h⟩


/-- C1: the claim (and the doctests of the Expression class) state that
integer terminals evaluate to themselves, so that Expression("99 & 15")
evaluated at None returns 3 and the bracketed doctest expression returns a
falsy value. The code instead stores integer terminals as strings
(str(int(...)) in the terminal classifier) and resolves every string
terminal by attribute lookup, so both evaluations raise AttributeError on
the terminal "99". This theorem evaluates the embedding at both documented
inputs and exhibits the failure. -/
theorem c1_integer_terminals_raise :
    mkExprTop none (lc "99 & 15") = .ok expr99and15 ∧
    evalE [] expr99and15 = .error (.attributeError (lc "99")) ∧
    mkExprTop (some hWorldFilter) (lc "(99&15)&&WORLD") = .ok exprWorldM ∧
    evalE ctxWorld exprWorldM = .error (.attributeError (lc "99")) := by
  refine ⟨rfl, rfl, rfl, rfl⟩

/-- C2 counterexample: version2number maps the short form "10.1" and the
padded form "10.1.0.0" to the same packed value 0x0A010000, refuting the
claimed distinctness; the single digit of the second component lands in the
second most significant byte (shift 16), not the third. -/
theorem c2_short_form_equals_padded :
    version2number (lc "10.1") = .ok (some 0x0A010000) ∧
    version2number (lc "10.1.0.0") = .ok (some 0x0A010000) := by
  refine ⟨rfl, rfl⟩

/-- C2 (amended): the 2-component short form writes the digits of the second
component from the second most significant byte downward, so "10.1" packs to
0x0A010000, equal to "10.1.0.0"; the short form departs from .0.0 padding
only when the second component has more than one digit, as "10.12"
(0x0A010200) against "10.12.0.0" (0x0A0C0000) shows. -/
theorem c2_two_component_packing :
    version2number (lc "10.1") = .ok (some 0x0A010000) ∧
    version2number (lc "10.1.0.0") = .ok (some 0x0A010000) ∧
    version2number (lc "10.12") = .ok (some 0x0A010200) ∧
    version2number (lc "10.12.0.0") = .ok (some 0x0A0C0000) ∧
    version2number (lc "10.0.1.0") = .ok (some 0x0A000100) := by
  refine ⟨rfl, rfl, rfl, rfl, rfl⟩

/-- C6 counterexample: for the empty string version2number returns the Python
None (the unset marker) instead of failing. -/
theorem c6_empty_returns_unset :
    version2number (lc "") = .ok none ∧
    ∀ e : PyErr, version2number (lc "") ≠ .error e := by
  refine ⟨rfl, ?_⟩
  intro e h
  simp [version2number, lc] at h

/-- C6 (amended): version2number raises for every input with more than 4 dot
separated components; the empty string instead returns the unset marker
(None), which stays distinguishable from the packed ordinal 0. -/
theorem c6_component_count :
    (∀ s : List Char, 4 < (splitDot s).length →
      version2number s = .error .assertionError) ∧
    version2number (lc "") = .ok none ∧
    (Except.ok (none : Option Int) : Except PyErr (Option Int)) ≠ .ok (some 0) := by
  refine ⟨?_, rfl, by simp⟩
  intro s h
  by_cases hs : s = []
  · subst hs
    simp [splitDot] at h
  · rw [version2number, if_neg hs, if_pos (by exact h)]

/-- C6 witness: the amended bound applied at the concrete five component
input. -/
theorem c6_component_count_witness :
    4 < (splitDot (lc "1.2.3.4.5")).length ∧
    version2number (lc "1.2.3.4.5") = .error .assertionError := by
  refine ⟨by decide, c6_component_count.1 (lc "1.2.3.4.5") (by decide)⟩

/-- C7 counterexample: parsing the empty string yields the empty terminal,
but evaluating it against the absent context raises AttributeError on the
empty attribute name instead of returning an empty result: the no lookup
special case of eval covers only the two character quote-quote terminal,
not the empty string. -/
theorem c7_empty_terminal_raises :
    mkExprTop none (lc "") = .ok emptyExprM ∧
    evalE [] emptyExprM = .error (.attributeError []) := by
  refine ⟨rfl, rfl⟩

/-- C7 (amended): parse("") yields the empty terminal; evaluating it against
any context not binding the empty attribute name raises AttributeError
(name lookup is attempted for every string terminal except the literal
quote-quote terminal, which alone evaluates to the empty string for every
context). -/
theorem c7_empty_terminal_lookup :
    mkExprTop none (lc "") = .ok emptyExprM ∧
    (∀ ctx : Ctx, getattrE ctx [] = .error (.attributeError []) →
      evalE ctx emptyExprM = .error (.attributeError [])) ∧
    (∀ ctx : Ctx, evalE ctx (.strT ['"', '"']) = .ok (.vstr [])) := by
  refine ⟨rfl, ?_, fun ctx => by simp [evalE]⟩
  intro ctx h
  simp [emptyExprM, evalE, h, Bind.bind, Except.bind]

/-- C7 witness: the amended statement applied at the absent (empty) context. -/
theorem c7_empty_terminal_lookup_witness :
    evalE [] emptyExprM = .error (.attributeError []) ∧
    evalE [] (.strT ['"', '"']) = .ok (.vstr []) := by
  exact ⟨c7_empty_terminal_lookup.2.1 [] rfl, c7_empty_terminal_lookup.2.2 []⟩

/-- C8 counterexample: the claim says the / operator yields the integer
truncating quotient; at left -7 and right 2 the code yields the floor
quotient -4 while truncation toward zero gives -3. -/
theorem c8_division_not_truncating :
    mkExprTop none (lc "x / y") = .ok exprDivXY ∧
    evalE ctxDivM exprDivXY = .ok (.vint (-4)) ∧
    Int.tdiv (-7) 2 = -3 ∧ ((-4 : Int) ≠ (-3 : Int)) := by
  refine ⟨rfl, rfl, by decide, by decide⟩

/-- C8 (amended): for every node with operator /, when both operands evaluate
to integers and the divisor is non zero, eval returns the floor quotient
(Python floor division, rounding toward negative infinity), which agrees
with the truncating quotient only when the exact quotient is non negative
or exact. -/
theorem c8_division_floor (ctx : Ctx) (l r : PExpr) (a b : Int)
    (hl : evalE ctx l = .ok (.vint a)) (hr : evalE ctx r = .ok (.vint b))
    (hb : b ≠ 0) :
    evalE ctx (.node l ['/'] r) = .ok (.vint (Int.fdiv a b)) := by
  simp [evalE, hl, hr, Bind.bind, Except.bind, applyOp, pyDiv, numOf, hb]

/-- C8 witness: the floor division statement applied at the concrete context
with x bound to -7 and y bound to 2. -/
theorem c8_division_floor_witness :
    evalE ctxDivM (.node (.strT (lc "x")) ['/'] (.strT (lc "y"))) =
      .ok (.vint (Int.fdiv (-7) 2)) := by
  exact c8_division_floor ctxDivM (.strT (lc "x")) (.strT (lc "y")) (-7) 2 rfl rfl
    (by decide)

/-- C9 counterexample: parsing "1.2.3.4.5" fails, although the text contains
no bracket at all (so no unmatched bracket) and no occurrence of any
operator (so no dangling operator position): the terminal classifier feeds
the dotted version prefix into version2number, whose more than 4 components
assert raises AssertionError, a failure class outside the claimed exactly
unmatched brackets or dangling operator set. -/
theorem c9_parse_fails_on_operator_free_text :
    mkExprTop none (lc "1.2.3.4.5") = .error .assertionError ∧
    (lc "1.2.3.4.5").all (fun c => c ≠ '(' && c ≠ ')') = true ∧
    operators.all (fun op => !listHasInfix op (lc "1.2.3.4.5")) = true := by
  refine ⟨rfl, by decide, by decide⟩

/-- C9 (amended): parse raises the syntax ValueError on unmatched brackets
("(a", "a)") and on a position where an operator is expected but missing
(in particular parse("a(b)c") fails with the syntax error), parses well
formed bracketed operator text such as "(99&15)&&y", but can also fail on
bracket free, operator free text: a terminal with a four component dotted
version prefix and more than four components raises AssertionError. -/
theorem c9_parse_failure_modes :
    mkExprTop none (lc "a(b)c") = .error .valueError ∧
    mkExprTop none (lc "(a") = .error .valueError ∧
    mkExprTop none (lc "a)") = .error .valueError ∧
    mkExprTop none (lc "1.2.3.4.5") = .error .assertionError ∧
    mkExprTop none (lc "(99&15)&&y") =
      .ok (.node expr99and15 ['&', '&'] (.strT (lc "y"))) := by
  refine ⟨rfl, rfl, rfl, rfl, rfl⟩

/-- C10: evaluation of a node with a non empty operator always resolves both
operand slots before the operator applies, with no short circuit: an error
from the right slot surfaces even when the left value alone would decide
the result; concretely, "x && y" with x bound to 0 and y unbound raises
AttributeError on y instead of returning 0. -/
theorem c10_no_short_circuit :
    (∀ (ctx : Ctx) (l : PExpr) (op : List Char) (r : PExpr) (v : PVal) (e : PyErr),
      op ≠ [] → evalE ctx l = .ok v → evalE ctx r = .error e →
      evalE ctx (.node l op r) = .error e) ∧
    mkExprTop none (lc "x && y") = .ok exprAndXY ∧
    evalE ctxAndM exprAndXY = .error (.attributeError (lc "y")) := by
  refine ⟨?_, rfl, rfl⟩
  intro ctx l op r v e hop hl hr
  simp [evalE, hl, hr, hop, Bind.bind, Except.bind]

/-- C10 witness: the general statement applied at the concrete "x && y"
instance with x bound to 0 and y unbound. -/
theorem c10_no_short_circuit_witness :
    evalE ctxAndM (.node (.strT (lc "x")) ['&', '&'] (.strT (lc "y"))) =
      .error (.attributeError (lc "y")) := by
  exact c10_no_short_circuit.1 ctxAndM (.strT (lc "x")) ['&', '&']
    (.strT (lc "y")) (.vint 0) (.attributeError (lc "y")) (by decide) rfl rfl

/-- Characters of the fueled hexadecimal digit accumulator. -/
theorem natHexAux_chars (fuel : Nat) : ∀ n acc c, c ∈ natHexAux fuel n acc →
    (∃ d, d < 16 ∧ c = hexCharD d) ∨ c ∈ acc := by
  induction fuel with
  | zero =>
      intro n acc c h
      simp only [natHexAux] at h
      exact Or.inr h
  | succ fuel ih =>
      intro n acc c h
      simp only [natHexAux] at h
      split at h
      · rcases List.mem_cons.mp h with h1 | h1
        · exact Or.inl ⟨n % 16, Nat.mod_lt _ (by norm_num), h1⟩
        · exact Or.inr h1
      · rcases ih _ _ _ h with h1 | h1
        · exact Or.inl h1
        · rcases List.mem_cons.mp h1 with h2 | h2
          · exact Or.inl ⟨n % 16, Nat.mod_lt _ (by norm_num), h2⟩
          · exact Or.inr h2

/-- Characters of the fueled decimal digit accumulator. -/
theorem natDecAux_chars (fuel : Nat) : ∀ n acc c, c ∈ natDecAux fuel n acc →
    (∃ d, d < 10 ∧ c = digitCharD d) ∨ c ∈ acc := by
  induction fuel with
  | zero =>
      intro n acc c h
      simp only [natDecAux] at h
      exact Or.inr h
  | succ fuel ih =>
      intro n acc c h
      simp only [natDecAux] at h
      split at h
      · rcases List.mem_cons.mp h with h1 | h1
        · exact Or.inl ⟨n % 10, Nat.mod_lt _ (by norm_num), h1⟩
        · exact Or.inr h1
      · rcases ih _ _ _ h with h1 | h1
        · exact Or.inl h1
        · rcases List.mem_cons.mp h1 with h2 | h2
          · exact Or.inl ⟨n % 10, Nat.mod_lt _ (by norm_num), h2⟩
          · exact Or.inr h2

/-- No hexadecimal digit character is an opening bracket. -/
theorem hexCharD_ne_paren : ∀ d, d < 16 → hexCharD d ≠ '(' := by
  decide

/-- No decimal digit character is an opening bracket. -/
theorem digitCharD_ne_paren : ∀ d, d < 10 → digitCharD d ≠ '(' := by
  decide

/-- The rendered 0x hex literal contains no opening bracket. -/
theorem paren_not_mem_hexRenderFull (n : Int) : '(' ∉ hexRenderFull n := by
  intro h
  simp only [hexRenderFull] at h
  rcases List.mem_cons.mp h with h | h
  · exact absurd h (by decide)
  rcases List.mem_cons.mp h with h | h
  · exact absurd h (by decide)
  split at h
  · rcases List.mem_cons.mp h with h | h
    · exact absurd h (by decide)
    · simp only [zeroPadTo, List.mem_append] at h
      rcases h with h | h
      · exact absurd (List.eq_of_mem_replicate h) (by decide)
      · rcases natHexAux_chars _ _ _ _ h with ⟨d, hd, he⟩ | h
        · exact hexCharD_ne_paren d hd he.symm
        · exact absurd h (List.not_mem_nil _)
  · simp only [zeroPadTo, List.mem_append] at h
    rcases h with h | h
    · exact absurd (List.eq_of_mem_replicate h) (by decide)
    · rcases natHexAux_chars _ _ _ _ h with ⟨d, hd, he⟩ | h
      · exact hexCharD_ne_paren d hd he.symm
      · exact absurd h (List.not_mem_nil _)

/-- The rendered str(int(...)) literal contains no opening bracket. -/
theorem paren_not_mem_decRenderInt (n : Int) : '(' ∉ decRenderInt n := by
  intro h
  simp only [decRenderInt] at h
  split at h
  · rcases List.mem_cons.mp h with h | h
    · exact absurd h (by decide)
    · rcases natDecAux_chars _ _ _ _ h with ⟨d, hd, he⟩ | h
      · exact digitCharD_ne_paren d hd he.symm
      · exact absurd h (List.not_mem_nil _)
  · rcases natDecAux_chars _ _ _ _ h with ⟨d, hd, he⟩ | h
    · exact digitCharD_ne_paren d hd he.symm
    · exact absurd h (List.not_mem_nil _)

/-- Every successfully constructed Expression is a node: the constructor
always ends with the node assembly. -/
theorem mkExprF_ok_node : ∀ (fuel : Nat) (f : NameFilter) (s : List Char) (e : PExpr),
    mkExprF fuel f s = .ok e → ∃ l op r, e = PExpr.node l op r := by
  intro fuel f s e h
  match fuel with
  | 0 => simp [mkExprF] at h
  | fuel + 1 =>
      simp only [mkExprF] at h
      obtain ⟨⟨left, op, right⟩, h1, h2⟩ := exceptBind_ok h
      obtain ⟨l, h3, h4⟩ := exceptBind_ok h2
      split at h4
      · split at h4
        · obtain ⟨r, h5, h6⟩ := exceptBind_ok h4
          simp only [pure, Except.pure] at h6
          exact ⟨l, op, r, (Except.ok.inj h6).symm⟩
        · obtain ⟨r, h5, h6⟩ := exceptBind_ok h4
          simp only [pure, Except.pure] at h6
          exact ⟨l, op, r, (Except.ok.inj h6).symm⟩
      · obtain ⟨r, h5, h6⟩ := exceptBind_ok h4
        simp only [pure, Except.pure] at h6
        exact ⟨l, op, r, (Except.ok.inj h6).symm⟩

/-- A string terminal produced by the filterless terminal classifier never
contains an opening bracket: the bracket branch recurses, the version and
integer branches render digit strings, and the fall through keeps a string
the branch condition certifies bracket free. -/
theorem parseTermF_strT_no_paren : ∀ (fuel : Nat) (s t : List Char),
    parseTermF fuel none s = .ok (.strT t) → '(' ∉ t := by
  intro fuel s t h
  match fuel with
  | 0 => simp [parseTermF] at h
  | fuel + 1 =>
      simp only [parseTermF] at h
      split at h
      · obtain ⟨l, op, r, he⟩ := mkExprF_ok_node _ _ _ _ h
        exact absurd he (by simp)
      · rename_i hnb
        split at h
        · obtain ⟨l, op, r, he⟩ := mkExprF_ok_node _ _ _ _ h
          exact absurd he (by simp)
        · have hs : '(' ∉ s := by
            simp at hnb
            exact hnb.1
          split at h
          · split at h
            · obtain ht := (PExpr.strT.inj (Except.ok.inj h)).symm
              rw [ht]
              exact paren_not_mem_hexRenderFull _
            · exact absurd h (by simp)
            · obtain ht := (PExpr.strT.inj (Except.ok.inj h)).symm
              rw [ht]
              simpa [nameTerm] using hs
            · exact absurd h (by simp)
          · split at h
            · split at h
              · obtain ht := (PExpr.strT.inj (Except.ok.inj h)).symm
                rw [ht]
                exact paren_not_mem_decRenderInt _
              · obtain ht := (PExpr.strT.inj (Except.ok.inj h)).symm
                rw [ht]
                simpa [nameTerm] using hs
            · obtain ht := (PExpr.strT.inj (Except.ok.inj h)).symm
              rw [ht]
              simpa [nameTerm] using hs

/-- The left slot of a constructed Expression never equals the bracketed
placeholder string: a nested node is not a string, and a string slot is
bracket free. -/
theorem mkExprF_lhs_no_placeholder : ∀ (fuel : Nat) (s : List Char) (e : PExpr),
    mkExprF fuel none s = .ok e → slotEqStr e.lhs argPlaceholder = false := by
  intro fuel s e h
  match fuel with
  | 0 => simp [mkExprF] at h
  | fuel + 1 =>
      simp only [mkExprF] at h
      obtain ⟨⟨left, op, right⟩, h1, h2⟩ := exceptBind_ok h
      obtain ⟨l, h3, h4⟩ := exceptBind_ok h2
      have key : ∀ r : PExpr, e = PExpr.node l op r →
          slotEqStr e.lhs argPlaceholder = false := by
        intro r he
        subst he
        cases l with
        | node l2 op2 r2 => rfl
        | strT t =>
            have hp := parseTermF_strT_no_paren _ _ _ h3
            simp only [PExpr.lhs, slotEqStr]
            apply beq_eq_false_iff_ne.mpr
            intro ht
            rw [ht] at hp
            exact hp (by decide)
      split at h4
      · split at h4
        · obtain ⟨r, h5, h6⟩ := exceptBind_ok h4
          simp only [pure, Except.pure] at h6
          exact key r (Except.ok.inj h6).symm
        · obtain ⟨r, h5, h6⟩ := exceptBind_ok h4
          simp only [pure, Except.pure] at h6
          exact key r (Except.ok.inj h6).symm
      · obtain ⟨r, h5, h6⟩ := exceptBind_ok h4
        simp only [pure, Except.pure] at h6
        exact key r (Except.ok.inj h6).symm

/-- A successfully built Member carries the given oid and a false
uses_argument flag (the bracketed placeholder comparison can never match a
parsed slot). -/
theorem mkMember_ok (oid : Nat) (d : Decl) (m : MemberM)
    (h : mkMember oid d = .ok m) : m.oid = oid ∧ m.usesArgument = false := by
  simp only [mkMember] at h
  obtain ⟨le, h1, h2⟩ := exceptBind_ok h
  obtain ⟨we, h3, h4⟩ := exceptBind_ok h2
  obtain ⟨ce, h5, h6⟩ := exceptBind_ok h4
  simp only [pure, Except.pure] at h6
  have hm := Except.ok.inj h6
  subst hm
  refine ⟨rfl, ?_⟩
  show (slotEqStr ce.lhs argPlaceholder || slotEqStr le.lhs argPlaceholder ||
    slotEqStr we.lhs argPlaceholder) = false
  rw [mkExprF_lhs_no_placeholder _ _ _ h5, mkExprF_lhs_no_placeholder _ _ _ h1,
    mkExprF_lhs_no_placeholder _ _ _ h3]
  rfl

/-- The structural slot equalities of a built Member: the three parsed
expressions and the uses_argument flag computed from them. -/
theorem mkMember_fields (oid : Nat) (d : Decl) (m : MemberM)
    (h : mkMember oid d = .ok m) :
    m.usesArgument = (slotEqStr m.mcond.lhs argPlaceholder ||
      slotEqStr m.mlength.lhs argPlaceholder ||
      slotEqStr m.mwidth.lhs argPlaceholder) := by
  simp only [mkMember] at h
  obtain ⟨le, h1, h2⟩ := exceptBind_ok h
  obtain ⟨we, h3, h4⟩ := exceptBind_ok h2
  obtain ⟨ce, h5, h6⟩ := exceptBind_ok h4
  simp only [pure, Except.pure] at h6
  have hm := Except.ok.inj h6
  subst hm
  rfl

/-- A fresh Member (oid above every oid in the list) is never found by the
identity membership test. -/
theorem memberIn_fresh (ms : List MemberM) (x : MemberM)
    (h : ∀ m ∈ ms, m.oid < x.oid) : memberIn x ms = false := by
  simp only [memberIn, List.any_eq_false]
  intro m hm
  have := h m hm
  simp only [beq_iff_eq]
  omega

/-- Invariants of the member loop of Struct.__init__: with fresh oids the
skip never fires, so the retained list grows by exactly one per declaration;
moreover every retained member has a false uses_argument flag and the final
argument flag is false. -/
theorem structLoop_props : ∀ (decls : List Decl) (oid : Nat) (ms : List MemberM)
    (arg : Bool) (out : List MemberM × Bool),
    (∀ m ∈ ms, m.oid < oid) → (∀ m ∈ ms, m.usesArgument = false) → arg = false →
    structLoop oid decls ms arg = .ok out →
    out.1.length = ms.length + decls.length ∧ out.2 = false ∧
    ∀ m ∈ out.1, m.usesArgument = false := by
  intro decls
  induction decls with
  | nil =>
      intro oid ms arg out hlt hua harg h
      simp only [structLoop, pure, Except.pure] at h
      have := Except.ok.inj h
      subst this
      subst harg
      exact ⟨by simp, rfl, hua⟩
  | cons d rest ih =>
      intro oid ms arg out hlt hua harg h
      simp only [structLoop] at h
      obtain ⟨x, hx, h2⟩ := exceptBind_ok h
      obtain ⟨hoid, hxua⟩ := mkMember_ok oid d x hx
      rw [memberIn_fresh ms x (by rw [hoid]; exact hlt)] at h2
      simp only [Bool.false_eq_true, if_false] at h2
      have hlt2 : ∀ m ∈ ms ++ [x], m.oid < oid + 1 := by
        intro m hm
        rcases List.mem_append.mp hm with hm | hm
        · exact Nat.lt_succ_of_lt (hlt m hm)
        · rcases List.mem_singleton.mp hm with rfl
          omega
      have hua2 : ∀ m ∈ ms ++ [x], m.usesArgument = false := by
        intro m hm
        rcases List.mem_append.mp hm with hm | hm
        · exact hua m hm
        · rcases List.mem_singleton.mp hm with rfl
          exact hxua
      have := ih (oid + 1) (ms ++ [x]) x.usesArgument out hlt2 hua2 hxua h2
      refine ⟨?_, this.2.1, this.2.2⟩
      rw [this.1]
      simp
      omega

/-- The duplicate chain pass keeps the list length. -/
theorem assignDups_length : ∀ ms : List MemberM, (assignDups ms).length = ms.length := by
  intro ms
  induction ms with
  | nil => rfl
  | cons m rest ih => simp [assignDups, ih]

/-- The duplicate chain pass keeps the uses_argument flags. -/
theorem assignDups_usesArg : ∀ ms : List MemberM,
    (∀ m ∈ ms, m.usesArgument = false) →
    ∀ m ∈ assignDups ms, m.usesArgument = false := by
  intro ms
  induction ms with
  | nil => intro _ m hm; simp [assignDups] at hm
  | cons m0 rest ih =>
      intro h m hm
      rcases List.mem_cons.mp hm with hm | hm
      · subst hm
        exact h m0 (List.mem_cons_self _ _)
      · exact ih (fun m hm2 => h m (List.mem_cons_of_mem _ hm2)) m hm

/-- C3 counterexample: a Struct built from two structurally identical
declarations retains two Members, not one: the skip test compares by object
identity (Member defines no structural equality), and a freshly built Member
is never identical to a list entry. -/
theorem c3_identical_members_both_retained :
    (structInitM [declX, declX]).map (fun st => st.members.length) = .ok 2 ∧
    (structInitM [declX, declX]).map (fun st => st.members.length) ≠ .ok 1 := by
  refine ⟨rfl, ?_⟩
  intro h
  rw [show (structInitM [declX, declX]).map (fun st => st.members.length) =
    Except.ok 2 from rfl] at h
  simp at h

/-- C3 (amended): the structural de-duplication of Struct.__init__ never
fires (its membership test is object identity and each built Member is a
fresh object), so every declaration adds a Member and structurally identical
pairs are both retained, linked by the next_dup chain: for the two identical
X declarations the first member points at the second. -/
theorem c3_member_count_equals_decl_count :
    (∀ (decls : List Decl) (st : StructM), structInitM decls = .ok st →
      st.members.length = decls.length) ∧
    structInitM [declX, declX] = .ok structXXM := by
  refine ⟨?_, rfl⟩
  intro decls st h
  simp only [structInitM] at h
  obtain ⟨⟨ms, arg⟩, h1, h2⟩ := exceptBind_ok h
  simp only [pure, Except.pure] at h2
  have hst := Except.ok.inj h2
  subst hst
  have hp := structLoop_props decls 0 [] false (ms, arg) (by simp) (by simp) rfl h1
  show (assignDups ms).length = decls.length
  rw [assignDups_length]
  have := hp.1
  simpa using this

/-- C3 witness: the amended count statement applied at the two identical X
declarations. -/
theorem c3_member_count_witness :
    structInitM [declX, declX] = .ok structXXM ∧ structXXM.members.length = 2 := by
  exact ⟨rfl, c3_member_count_equals_decl_count.1 [declX, declX] structXXM rfl⟩

/-- A slot equals the placeholder as a boolean exactly when it is that string
terminal. -/
theorem slotEqStr_iff (t : PExpr) (pat : List Char) :
    slotEqStr t pat = true ↔ t = .strT pat := by
  cases t <;> simp [slotEqStr]

/-- C4: a Member uses the argument exactly when the left operand of its cond,
length or width expression is the literal placeholder string "(ARG)" (the
constant the source compares against), and a Struct argument flag is true
exactly when some member uses the argument. Both equivalences hold for every
constructible Member and Struct; both sides are in fact always false, since
a parsed left slot can never be the bracketed placeholder string (bracketed
text always recurses into a nested node), which also reconciles the source
detail that the Struct flag is copied from the last retained member rather
than accumulated. -/
theorem c4_uses_argument_iff :
    (∀ (oid : Nat) (d : Decl) (m : MemberM), mkMember oid d = .ok m →
      (m.usesArgument = true ↔
        (m.mcond.lhs = .strT argPlaceholder ∨ m.mlength.lhs = .strT argPlaceholder ∨
          m.mwidth.lhs = .strT argPlaceholder))) ∧
    (∀ (decls : List Decl) (st : StructM), structInitM decls = .ok st →
      (st.argument = true ↔ ∃ m ∈ st.members, m.usesArgument = true)) := by
  constructor
  · intro oid d m h
    rw [mkMember_fields oid d m h]
    simp only [Bool.or_eq_true, slotEqStr_iff]
    tauto
  · intro decls st h
    simp only [structInitM] at h
    obtain ⟨⟨ms, arg⟩, h1, h2⟩ := exceptBind_ok h
    simp only [pure, Except.pure] at h2
    have hst := Except.ok.inj h2
    subst hst
    have hp := structLoop_props decls 0 [] false (ms, arg) (by simp) (by simp) rfl h1
    have haf : arg = false := hp.2.1
    have huaf : ∀ m ∈ ms, m.usesArgument = false := hp.2.2
    constructor
    · intro harg
      have hargv : arg = true := harg
      rw [haf] at hargv
      cases hargv
    · intro ⟨m, hm, hma⟩
      have hm2 : m ∈ assignDups ms := hm
      have := assignDups_usesArg ms huaf m hm2
      rw [this] at hma
      cases hma

/-- C4 witness: the equivalences applied at the concrete declaration whose
cond attribute is the bracketed placeholder text. -/
theorem c4_uses_argument_iff_witness :
    (memberArgM.usesArgument = true ↔
      (memberArgM.mcond.lhs = .strT argPlaceholder ∨
        memberArgM.mlength.lhs = .strT argPlaceholder ∨
        memberArgM.mwidth.lhs = .strT argPlaceholder)) ∧
    (structArgM.argument = true ↔ ∃ m ∈ structArgM.members, m.usesArgument = true) := by
  exact ⟨c4_uses_argument_iff.1 0 declArgM memberArgM rfl,
    c4_uses_argument_iff.2 [declArgM] structArgM rfl⟩

/-- Keys already registered survive a successful category loop. -/
theorem regAddAll_mono : ∀ (ns : List (List Char)) (c : Bool) (r r' : Registry),
    regAddAll c r ns = .ok r' →
    ∀ k, r.keys.contains k = true → r'.keys.contains k = true := by
  intro ns
  induction ns with
  | nil =>
      intro c r r' h k hk
      simp only [regAddAll] at h
      have := Except.ok.inj h
      subst this
      exact hk
  | cons n rest ih =>
      intro c r r' h k hk
      simp only [regAddAll] at h
      split at h
      · simp at h
      · split at h
        · simp at h
        · apply ih _ _ _ h
          have hk2 : k ∈ r.keys := by simpa using hk
          show (r.keys ++ [n]).contains k = true
          simp [hk2]

/-- Every name of a successfully loaded category ends up among the registry
keys. -/
theorem regAddAll_mem : ∀ (ns : List (List Char)) (c : Bool) (r r' : Registry),
    regAddAll c r ns = .ok r' → ∀ n ∈ ns, r'.keys.contains n = true := by
  intro ns
  induction ns with
  | nil =>
      intro c r r' h n hn
      simp at hn
  | cons a rest ih =>
      intro c r r' h n hn
      simp only [regAddAll] at h
      split at h
      · simp at h
      · split at h
        · simp at h
        · rcases List.mem_cons.mp hn with rfl | hn2
          · apply regAddAll_mono rest c _ r' h
            show ((r.keys ++ [n]).contains n) = true
            simp
          · exact ih _ _ _ h n hn2

/-- A category loop whose first element is already registered raises the
duplicate assert. -/
theorem regAddAll_dup_head (c : Bool) (r : Registry) (n : List Char)
    (rest : List (List Char)) (h : r.keys.contains n = true) :
    regAddAll c r (n :: rest) = .error .assertionError := by
  by_cases h1 : (c && n.isEmpty) = true
  · simp [regAddAll, h1]
  · have hm : n ∈ r.keys := by simpa using h
    simp [regAddAll, h1, hm]

/-- C5 counterexample: parse_xml mutates the shared module level registries,
so loading the same document twice does not repeat the first result: the
first call over the pristine module state succeeds and the second call,
seeing the registries the first call filled, trips the duplicate name assert
of the version loop. -/
theorem c5_loads_share_registry_state :
    parseXmlM initRegistries sampleDoc = .ok (true, sampleRegsAfter) ∧
    parseXmlM sampleRegsAfter sampleDoc = .error .assertionError := by
  refine ⟨rfl, rfl⟩

/-- C5 (amended): parse_xml is deterministic as a function of the document
and the module registry state, but the state is shared across calls: after
any successful validated load of a document with at least one version
element, re-running parse_xml on the same document raises AssertionError at
the duplicate registry name assert, so load is not idempotent and
concurrent or repeated loads do share mutable registry state. -/
theorem c5_second_load_fails :
    ∀ (regs : Registries) (doc : DocM) (regs2 : Registries),
      doc.versionEls ≠ [] → parseXmlM regs doc = .ok (true, regs2) →
      parseXmlM regs2 doc = .error .assertionError := by
  intro regs doc regs2 hne h
  simp only [parseXmlM] at h ⊢
  obtain ⟨sup, h1, h2⟩ := exceptBind_ok h
  rw [h1]
  simp only [Bind.bind, Except.bind]
  split at h2
  · simp at h2
  · rename_i hcond
    rw [if_neg hcond]
    obtain ⟨vs, hv, h3⟩ := exceptBind_ok h2
    obtain ⟨bs, hb, h4⟩ := exceptBind_ok h3
    obtain ⟨es, hee, h5⟩ := exceptBind_ok h4
    obtain ⟨fs, hf, h6⟩ := exceptBind_ok h5
    obtain ⟨ss, hss, h7⟩ := exceptBind_ok h6
    obtain ⟨ns, hn, h8⟩ := exceptBind_ok h7
    have h9 := Except.ok.inj h8
    have hA : Registries.mk vs bs es fs ss ns = regs2 := congrArg Prod.snd h9
    subst hA
    obtain ⟨n0, rest, hvEls⟩ : ∃ n0 rest, doc.versionEls = n0 :: rest := by
      cases hdve : doc.versionEls with
      | nil => exact absurd hdve hne
      | cons a b => exact ⟨a, b, rfl⟩
    rw [hvEls] at hv ⊢
    have hcont : vs.keys.contains n0 = true :=
      regAddAll_mem _ _ _ _ hv n0 (List.mem_cons_self _ _)
    rw [show (Registries.mk vs bs es fs ss ns).versions = vs from rfl]
    rw [regAddAll_dup_head false vs n0 rest hcont]

/-- C5 witness: the amended statement applied at the sample document over the
pristine module state. -/
theorem c5_second_load_fails_witness :
    sampleDoc.versionEls ≠ [] ∧
    parseXmlM initRegistries sampleDoc = .ok (true, sampleRegsAfter) ∧
    parseXmlM sampleRegsAfter sampleDoc = .error .assertionError := by
  refine ⟨by decide, rfl,
    c5_second_load_fails initRegistries sampleDoc sampleRegsAfter (by decide) rfl⟩
